import Mathlib

/-!
Shallow embedding of the request-execution engine of the `rosu-v2` osu! API
client (files `src/client/mod.rs` and `src/request/ranking.rs`).

Modelling conventions:
* HTTP response bodies and request bodies are `String`s (the Rust code moves
  between `Bytes` and `String::from_utf8_lossy`; the distinction is immaterial
  to the verified properties, so bodies are kept as text throughout).
* JSON (de)serialization (`serde_json::from_slice`) is a parameter: a decoder
  `String → Except String π` standing for `serde_json`, so every theorem
  quantifies over the decoder.
* The network (`self.http.request` wrapped in `tokio::time::timeout`) is a
  parameter `Nat → AttemptOutcome ε α`: for each attempt index, either the
  timeout elapsed, or the exchange completed with a response, or it completed
  with a non-timeout transport error (`hyper::Error`).
* Stateful effects that the claims talk about — rate-limiter acquisition and
  network sends — are made explicit as an event trace returned next to the
  result.
* `Url::parse` and `hyper::body::to_bytes` are modelled as total: the claims
  under verification do not concern URL syntax errors or chunking failures.
-/

/-- Observable effects of the send pipeline: one rate-limiter acquisition
(`self.ratelimiter.acquire_one().await`) or one network send attempt
(`self.http.request(req)` for the given attempt counter value). -/
inductive Event where
  | acquire
  | send (attempt : Nat)
deriving DecidableEq, Repr

/-- Outcome of one attempt of `tokio::time::timeout(self.timeout, self.http.request(req))`:
`timeout` when the timer elapses first, otherwise the inner result, which is
either a response or a non-timeout transport error (`hyper::Error`). -/
inductive AttemptOutcome (ε α : Type) where
  | timeout
  | success (resp : α)
  | failure (source : ε)
deriving DecidableEq

/-- The error enum `OsuError` of the crate, restricted to the variants the
request-execution engine produces. `ε` is the transport error type
(`hyper::Error`), `π` the parsed API-error payload type (`ApiError`). -/
inductive OsuError (ε π : Type) where
  /-- Embeds `OsuError::NoToken`: token absent at send time. -/
  | noToken
  /-- Embeds `OsuError::CreatingTokenHeader`: the access token is not a valid header value. -/
  | creatingTokenHeader
  /-- Embeds `OsuError::RequestTimeout`: all attempts timed out. -/
  | requestTimeout
  /-- Embeds `OsuError::Request`: non-timeout transport failure. -/
  | request (source : ε)
  /-- Embeds `OsuError::NotFound`: status 404. -/
  | notFound
  /-- Embeds `OsuError::ServiceUnavailable`: status 503 with the raw body text. -/
  | serviceUnavailable (body : String)
  /-- Embeds `OsuError::Response`: non-2xx status with a parseable error body. -/
  | response (body : String) (source : π) (status : Nat)
  /-- Embeds `OsuError::Parsing`: a body that did not deserialize, with raw text and parse error. -/
  | parsing (body : String) (source : String)
deriving DecidableEq

/-- The send events `[send a, send (a+1), ..., send (a+n-1)]` produced by `n`
consecutive loop iterations starting at attempt counter `a`. -/
def send_events : Nat → Nat → List Event
  | _, 0 => []
  | a, n + 1 => Event.send a :: send_events (a + 1) n

/-- The retry loop inside `OsuRef::send_request` (src/client/mod.rs:731-744).
`retriesLeft` is `self.retries - attempt`, so the guard `attempt < self.retries`
holds exactly when `retriesLeft` is nonzero. Each iteration clones the request
and performs one network attempt; a completed exchange returns immediately
(success or `OsuError::Request`), a timeout either retries with the
incremented attempt counter or — with no retries left — ends in
`OsuError::RequestTimeout`. The second component records the send attempts. -/
def send_loop (t : Nat → AttemptOutcome ε α) :
    Nat → Nat → Except (OsuError ε π) α × List Event
  | 0, attempt =>
    match t attempt with
    | .success r => (.ok r, [Event.send attempt])
    | .failure e => (.error (.request e), [Event.send attempt])
    | .timeout => (.error .requestTimeout, [Event.send attempt])
  | k + 1, attempt =>
    match t attempt with
    | .success r => (.ok r, [Event.send attempt])
    | .failure e => (.error (.request e), [Event.send attempt])
    | .timeout =>
      let rest := send_loop t k (attempt + 1)
      (rest.1, Event.send attempt :: rest.2)

/-- Embeds `OsuRef::send_request` (src/client/mod.rs:728-745): acquire one unit from
the shared rate limiter, then run the retry loop with the attempt counter
starting at zero. -/
def send_request (t : Nat → AttemptOutcome ε α) (retries : Nat) :
    Except (OsuError ε π) α × List Event :=
  let r := send_loop t retries 0
  (r.1, Event.acquire :: r.2)

/-- An event trace passes the rate-limiter gate exactly once, before any
network send: it starts with the single `acquire` and everything after it is a
send attempt. -/
def gate_once (evs : List Event) : Prop :=
  ∃ l, evs = Event.acquire :: l ∧ ∀ x ∈ l, ∃ i, x = Event.send i

/-- An HTTP response as consumed by `OsuRef::handle_status`: status code and
body (the body text obtained from the body bytes). -/
structure HttpResp where
  status : Nat
  body : String
deriving DecidableEq

/-- Embeds `OsuRef::handle_status` (src/client/mod.rs:747-778). `d` stands for
`serde_json::from_slice` at the API-error payload type. Status 200 returns the
body for deserialization; 404 is `NotFound`; 503 is `ServiceUnavailable` with
the body text; 429 only logs a warning and, like every other status, falls
through to parsing the body as a structured API error: `OsuError::Response`
when it parses, `OsuError::Parsing` when it does not. -/
def handle_status (d : String → Except String π) (status : Nat) (body : String) :
    Except (OsuError ε π) String :=
  if status = 200 then .ok body
  else if status = 404 then .error .notFound
  else if status = 503 then .error (.serviceUnavailable body)
  else
    match d body with
    | .ok source => .error (.response body source status)
    | .error source => .error (.parsing body source)

/-- Embeds `parse_bytes` (src/client/mod.rs:781-788): deserialize a successful body
into the target type; on failure produce `OsuError::Parsing` carrying the raw
body text and the parse error. `d` stands for `serde_json::from_slice` at the
target type. -/
def parse_bytes (d : String → Except String τ) (body : String) :
    Except (OsuError ε π) τ :=
  match d body with
  | .ok v => .ok v
  | .error source => .error (.parsing body source)

/-- The token stored in `OsuRef.token` (`token::Token`): optional access and
refresh strings (the `expires_in` duration plays no role in the claims). The
stored access string already includes the `Bearer ` prefix. -/
structure Token where
  access : Option String
  refresh : Option String
deriving DecidableEq

/-- Embeds `token::AuthorizationKind`: `Client(Scope)` for the client-credentials
flow (the scope rendered as a string), or `User(Authorization)` carrying the
redirect URI and one-time code for the authorization-code flow. -/
inductive AuthorizationKind where
  | client (scope : String)
  | user (redirect_uri : String) (code : String)
deriving DecidableEq

/-- A field value of the JSON token-request body: `push_without_quotes`
renders the value bare (used for the numeric client id) and
`push_with_quotes` renders it as a JSON string. -/
inductive BodyValue where
  | num (n : Nat)
  | str (s : String)
deriving DecidableEq

/-- Modelled from the spec: the crate's `Body` builder (defined in
`src/request`, not among the provided sources) accumulates fields for an
`application/json`-encoded object. It is modelled as the ordered field list;
§6 of the spec: "POST to a fixed OAuth path with an `application/json`-encoded
body containing `client_id`, `client_secret`, `grant_type`, and grant-specific
fields". -/
structure Body where
  fields : List (String × BodyValue)
deriving DecidableEq

/-- Embeds `Body::default()`: the empty body. -/
def Body.default : Body := ⟨[]⟩

/-- Embeds `Body::push_without_quotes`: append a field whose value is rendered bare. -/
def Body.push_without_quotes (b : Body) (key : String) (n : Nat) : Body :=
  ⟨b.fields ++ [(key, BodyValue.num n)]⟩

/-- Embeds `Body::push_with_quotes`: append a field whose value is rendered as a
JSON string. -/
def Body.push_with_quotes (b : Body) (key v : String) : Body :=
  ⟨b.fields ++ [(key, BodyValue.str v)]⟩

/-- Modelled from the spec: `BodyBytes::from(Body)` serializes the accumulated
fields as an `application/json` object. -/
def Body.encode (b : Body) : String :=
  let one := fun (f : String × BodyValue) =>
    match f.2 with
    | .num n => "\"" ++ f.1 ++ "\":" ++ toString n
    | .str s => "\"" ++ f.1 ++ "\":\"" ++ s ++ "\""
  "\x7b" ++ String.intercalate "," (b.fields.map one) ++ "\x7d"

/-- The body assembled by `OsuRef::request_token` (src/client/mod.rs:630-653):
always the client id (unquoted) and client secret, then per authorization
kind: client-credentials sends `grant_type=client_credentials` with the
configured scope; the user flow sends `grant_type=refresh_token` with the
stored refresh token when one exists, and otherwise
`grant_type=authorization_code` with the redirect URI, the one-time code and
the fixed `identify public` scope. `stored_refresh` is the value of
`self.token.read().await.refresh`. -/
def request_token_body (client_id : Nat) (client_secret : String)
    (auth : AuthorizationKind) (stored_refresh : Option String) : Body :=
  let b := (Body.default.push_without_quotes "client_id" client_id).push_with_quotes
    "client_secret" client_secret
  match auth with
  | .client scope =>
    (b.push_with_quotes "grant_type" "client_credentials").push_with_quotes "scope" scope
  | .user redirect_uri code =>
    match stored_refresh with
    | some refresh =>
      (b.push_with_quotes "grant_type" "refresh_token").push_with_quotes
        "refresh_token" refresh
    | none =>
      ((((b.push_with_quotes "grant_type" "authorization_code").push_with_quotes
        "redirect_uri" redirect_uri).push_with_quotes
        "code" code).push_with_quotes "scope" "identify public")

/-- A header value: textual, or numeric (`CONTENT_LENGTH` and
`X_API_VERSION` are set from integers). -/
inductive HeaderVal where
  | str (s : String)
  | num (n : Nat)
deriving DecidableEq

/-- Embeds `APPLICATION_JSON` (src/client/mod.rs:624). -/
def APPLICATION_JSON : String := "application/json"

/-- Embeds `X_API_VERSION` (src/client/mod.rs:625). -/
def X_API_VERSION : String := "x-api-version"

/-- Embeds `API_VERSION` (src/client/mod.rs:627). -/
def API_VERSION : Nat := 20220705

/-- Embeds `MY_USER_AGENT` (src/client/mod.rs:616-622): a fixed string assembled at
build time from the crate's repository URL and version; the exact metadata
values do not affect any verified property. -/
def MY_USER_AGENT : String :=
  "Rust API v2 (https://github.com/ev3nvy/rosu-v2 v0.5.0)"

/-- A fully built outbound HTTP request: URL, ordered header list, body. -/
structure BuiltRequest where
  url : String
  headers : List (String × HeaderVal)
  body : String
deriving DecidableEq

/-- The API request built by `OsuRef::raw` (src/client/mod.rs:697-720) once an
access token is present: URL `https://osu.ppy.sh/api/v2/{path}{query}`,
headers authorization (the stored bearer token), user-agent, x-api-version,
accept and content-length, plus `Content-Type: application/json` exactly when
the body is non-empty. `tokenHeader` is the encoded access-token header
value. -/
def api_request (tokenHeader path query body : String) : BuiltRequest :=
  let base : List (String × HeaderVal) :=
    [("authorization", HeaderVal.str tokenHeader),
     ("user-agent", HeaderVal.str MY_USER_AGENT),
     (X_API_VERSION, HeaderVal.num API_VERSION),
     ("accept", HeaderVal.str APPLICATION_JSON),
     ("content-length", HeaderVal.num body.length)]
  { url := "https://osu.ppy.sh/api/v2/" ++ path ++ query
    headers := if body = "" then base else base ++ [("content-type", HeaderVal.str APPLICATION_JSON)]
    body := body }

/-- The token request built by `OsuRef::request_token`
(src/client/mod.rs:655-665): POST to the fixed OAuth URL with user-agent,
accept, content-type and content-length headers and the encoded grant body. -/
def token_request (client_id : Nat) (client_secret : String)
    (auth : AuthorizationKind) (stored_refresh : Option String) : BuiltRequest :=
  let body := (request_token_body client_id client_secret auth stored_refresh).encode
  { url := "https://osu.ppy.sh/oauth/token"
    headers :=
      [("user-agent", HeaderVal.str MY_USER_AGENT),
       ("accept", HeaderVal.str APPLICATION_JSON),
       ("content-type", HeaderVal.str APPLICATION_JSON),
       ("content-length", HeaderVal.num body.length)]
    body := body }

/-- Embeds `OsuRef::raw` (src/client/mod.rs:689-726): build the URL, read the stored
token; without an access token fail with `OsuError::NoToken` before touching
the rate limiter or the network (empty event trace); otherwise encode the
token as a header value (`HeaderValue::from_str`, modelled by `enc`, which
fails with `OsuError::CreatingTokenHeader`), build the API request and hand it
to `send_request`. The transport `t` is a function of the built request and
the attempt index. -/
def raw (path query body : String) (tok : Token) (enc : String → Option String)
    (t : BuiltRequest → Nat → AttemptOutcome ε α) (retries : Nat) :
    Except (OsuError ε π) α × List Event :=
  match tok.access with
  | none => (.error .noToken, [])
  | some access =>
    match enc access with
    | none => (.error .creatingTokenHeader, [])
    | some v => send_request (t (api_request v path query body)) retries

/-- Embeds `OsuRef::request_token` (src/client/mod.rs:630-671): build the grant body
and the token request, send it through `send_request` (hence through the rate
limiter), classify the status with `handle_status` and deserialize the token
response with `parse_bytes`. `dErr` and `dTok` stand for `serde_json` at the
API-error payload type and at `TokenResponse`. -/
def request_token (client_id : Nat) (client_secret : String)
    (auth : AuthorizationKind) (stored_refresh : Option String)
    (t : BuiltRequest → Nat → AttemptOutcome ε HttpResp) (retries : Nat)
    (dErr : String → Except String π) (dTok : String → Except String τ) :
    Except (OsuError ε π) τ × List Event :=
  let req := token_request client_id client_secret auth stored_refresh
  let r := send_request (t req) retries
  let res : Except (OsuError ε π) τ :=
    match r.1 with
    | .error e => .error e
    | .ok resp =>
      match handle_status dErr resp.status resp.body with
      | .error e => .error e
      | .ok bytes => parse_bytes dTok bytes
  (res, r.2)

/-- Embeds `model::GameMode`: the four game modes; `MNA` is mania. -/
inductive GameMode where
  | STD
  | TKO
  | CTB
  | MNA
deriving DecidableEq

/-- Embeds `GetChartRankings` (src/request/ranking.rs:26-31): the lazy chart-rankings
builder. `fut` is the cached in-flight computation (`Option<Pending>`),
created at most once; the reference to the client is left implicit. -/
structure GetChartRankings where
  fut : Option Unit
  mode : GameMode
  spotlight : Option Nat
deriving DecidableEq

/-- Embeds `GetChartRankings::new` (src/request/ranking.rs:35-42). -/
def GetChartRankings.new (mode : GameMode) : GetChartRankings :=
  { fut := none, mode := mode, spotlight := none }

/-- Embeds `GetChartRankings::spotlight` (src/request/ranking.rs:47-51): replace the
spotlight id. (Named `set_spotlight` because the field projection already
takes the source name.) -/
def GetChartRankings.set_spotlight (b : GetChartRankings) (spotlight_id : Nat) :
    GetChartRankings :=
  { b with spotlight := some spotlight_id }

/-- The query assembled by `GetChartRankings::start`
(src/request/ranking.rs:57-61): the spotlight parameter when one was set. -/
def chart_start_query (b : GetChartRankings) : List (String × String) :=
  match b.spotlight with
  | some spotlight => [("spotlight", toString spotlight)]
  | none => []

/-- Embeds `GetPerformanceRankings` (src/request/ranking.rs:134-141): the lazy
performance-rankings builder. -/
structure GetPerformanceRankings where
  fut : Option Unit
  mode : GameMode
  country : Option String
  variant : Option String
  page : Option Nat
deriving DecidableEq

/-- Embeds `GetPerformanceRankings::new` (src/request/ranking.rs:145-154). -/
def GetPerformanceRankings.new (mode : GameMode) : GetPerformanceRankings :=
  { fut := none, mode := mode, country := none, variant := none, page := none }

/-- Embeds `GetPerformanceRankings::country` (src/request/ranking.rs:158-162):
replace the country code. (Named `set_country` because the field projection
already takes the source name.) -/
def GetPerformanceRankings.set_country (b : GetPerformanceRankings) (country : String) :
    GetPerformanceRankings :=
  { b with country := some country }

/-- Embeds `GetPerformanceRankings::variant_4k` (src/request/ranking.rs:165-171):
replace the variant with `"4k"`, but only when the mode is mania. -/
def GetPerformanceRankings.variant_4k (b : GetPerformanceRankings) :
    GetPerformanceRankings :=
  if b.mode = GameMode.MNA then { b with variant := some "4k" } else b

/-- Embeds `GetPerformanceRankings::variant_7k` (src/request/ranking.rs:174-180):
replace the variant with `"7k"`, but only when the mode is mania. -/
def GetPerformanceRankings.variant_7k (b : GetPerformanceRankings) :
    GetPerformanceRankings :=
  if b.mode = GameMode.MNA then { b with variant := some "7k" } else b

/-- Embeds `GetPerformanceRankings::page` (src/request/ranking.rs:184-188): replace
the page. (Named `set_page` because the field projection already takes the
source name.) -/
def GetPerformanceRankings.set_page (b : GetPerformanceRankings) (page : Nat) :
    GetPerformanceRankings :=
  { b with page := some page }

/-- The query assembled by `GetPerformanceRankings::start`
(src/request/ranking.rs:195-207): country, then variant, then cursor page,
each included only when set. -/
def perf_start_query (b : GetPerformanceRankings) : List (String × String) :=
  (match b.country with
   | some country => [("country", country)]
   | none => []) ++
  (match b.variant with
   | some variant => [("variant", variant)]
   | none => []) ++
  (match b.page with
   | some page => [("cursor[page]", toString page)]
   | none => [])

/-- One application of a fluent configuration method of
`GetPerformanceRankings`. -/
inductive PerfAction where
  | set_country (country : String)
  | variant_4k
  | variant_7k
  | set_page (page : Nat)
deriving DecidableEq

/-- Apply one fluent configuration method. -/
def apply_perf (b : GetPerformanceRankings) : PerfAction → GetPerformanceRankings
  | .set_country country => b.set_country country
  | .variant_4k => b.variant_4k
  | .variant_7k => b.variant_7k
  | .set_page page => b.set_page page

/-- Apply a sequence of fluent configuration methods, left to right. -/
def apply_perf_list (b : GetPerformanceRankings) (acts : List PerfAction) :
    GetPerformanceRankings :=
  acts.foldl apply_perf b

/-- A lazy chart-rankings builder together with the number of network sends
its computation has issued so far. -/
structure ChartBuilderState where
  builder : GetChartRankings
  sends : Nat
deriving DecidableEq

/-- Modelled from the spec: the `poll_req!` macro (defined in `src/request`,
not among the provided sources) implements the builders' `Future`: on the
first poll it calls `start()` and caches the pending computation in `fut`;
"subsequent drives reuse the same in-flight computation rather than re-issuing
the request" (spec §4.5). Starting the computation issues the one underlying
network request, counted in `sends`. -/
def poll_once (s : ChartBuilderState) : ChartBuilderState :=
  match s.builder.fut with
  | some _ => s
  | none => { builder := { s.builder with fut := some () }, sends := s.sends + 1 }

lemma send_events_length (a n : Nat) : (send_events a n).length = n := by
  induction n generalizing a with
  | zero => rfl
  | succ n ih => simp [send_events, ih]

lemma send_loop_success {ε α π : Type} (m : Nat) :
    ∀ (t : Nat → AttemptOutcome ε α) (fuel a : Nat) (r : α), m ≤ fuel →
      (∀ i, i < m → t (a + i) = AttemptOutcome.timeout) →
      t (a + m) = AttemptOutcome.success r →
      send_loop (π := π) t fuel a = (Except.ok r, send_events a (m + 1)) := by
  induction m with
  | zero =>
    intro t fuel a r _ _ hs
    rw [Nat.add_zero] at hs
    cases fuel <;> simp [send_loop, hs, send_events]
  | succ m ih =>
    intro t fuel a r hle hto hs
    have h0 : t a = AttemptOutcome.timeout := by
      have := hto 0 (Nat.succ_pos m)
      simpa using this
    obtain ⟨k, rfl⟩ : ∃ k, fuel = k + 1 := by
      cases fuel with
      | zero => omega
      | succ k => exact ⟨k, rfl⟩
    have hrec := ih t k (a + 1) r (by omega)
      (fun i hi => by
        have := hto (i + 1) (by omega)
        simpa [Nat.add_assoc, Nat.add_comm 1 i] using this)
      (by
        rw [show a + 1 + m = a + (m + 1) by omega]
        exact hs)
    simp [send_loop, h0, hrec, send_events]

lemma send_loop_failure {ε α π : Type} (m : Nat) :
    ∀ (t : Nat → AttemptOutcome ε α) (fuel a : Nat) (e : ε), m ≤ fuel →
      (∀ i, i < m → t (a + i) = AttemptOutcome.timeout) →
      t (a + m) = AttemptOutcome.failure e →
      send_loop (π := π) t fuel a
        = (Except.error (OsuError.request e), send_events a (m + 1)) := by
  induction m with
  | zero =>
    intro t fuel a e _ _ hs
    rw [Nat.add_zero] at hs
    cases fuel <;> simp [send_loop, hs, send_events]
  | succ m ih =>
    intro t fuel a e hle hto hs
    have h0 : t a = AttemptOutcome.timeout := by
      have := hto 0 (Nat.succ_pos m)
      simpa using this
    obtain ⟨k, rfl⟩ : ∃ k, fuel = k + 1 := by
      cases fuel with
      | zero => omega
      | succ k => exact ⟨k, rfl⟩
    have hrec := ih t k (a + 1) e (by omega)
      (fun i hi => by
        have := hto (i + 1) (by omega)
        simpa [Nat.add_assoc, Nat.add_comm 1 i] using this)
      (by
        rw [show a + 1 + m = a + (m + 1) by omega]
        exact hs)
    simp [send_loop, h0, hrec, send_events]

lemma send_loop_timeout_all {ε α π : Type} (fuel : Nat) :
    ∀ (t : Nat → AttemptOutcome ε α) (a : Nat), (∀ i, t i = AttemptOutcome.timeout) →
      send_loop (π := π) t fuel a
        = (Except.error OsuError.requestTimeout, send_events a (fuel + 1)) := by
  induction fuel with
  | zero =>
    intro t a h
    simp [send_loop, h a, send_events]
  | succ k ih =>
    intro t a h
    simp [send_loop, h a, ih t (a + 1) h, send_events]

lemma send_loop_only_sends {ε α π : Type} (fuel : Nat) :
    ∀ (t : Nat → AttemptOutcome ε α) (a : Nat) (x : Event),
      x ∈ (send_loop (π := π) t fuel a).2 → ∃ i, x = Event.send i := by
  induction fuel with
  | zero =>
    intro t a x hx
    cases h : t a <;> simp [send_loop, h] at hx <;> exact ⟨a, hx⟩
  | succ k ih =>
    intro t a x hx
    cases h : t a <;> simp [send_loop, h] at hx
    · rcases hx with hx | hx
      · exact ⟨a, hx⟩
      · exact ih t (a + 1) x hx
    · exact ⟨a, hx⟩
    · exact ⟨a, hx⟩

/-- C2: for every configured maximum retry count `k`, a transport that times
out on exactly the first `k` attempts and then succeeds makes `send_request`
return the successful response with exactly `k + 1` send attempts observed,
and a transport that always times out makes `send_request` return
`OsuError::RequestTimeout` after exactly `k + 1` attempts. -/
theorem retry_timeout_policy {ε α π : Type} (k : Nat) :
    (∀ (t : Nat → AttemptOutcome ε α) (r : α),
        (∀ i, i < k → t i = AttemptOutcome.timeout) →
        t k = AttemptOutcome.success r →
        send_request (π := π) t k
            = (Except.ok r, Event.acquire :: send_events 0 (k + 1))
          ∧ (send_events 0 (k + 1)).length = k + 1)
    ∧ ∀ (t : Nat → AttemptOutcome ε α), (∀ i, t i = AttemptOutcome.timeout) →
        send_request (π := π) t k
            = (Except.error OsuError.requestTimeout, Event.acquire :: send_events 0 (k + 1))
          ∧ (send_events 0 (k + 1)).length = k + 1 := by
  constructor
  · intro t r hto hs
    have h := send_loop_success (π := π) k t k 0 r le_rfl
      (fun i hi => by simpa using hto i hi) (by simpa using hs)
    exact ⟨by simp [send_request, h], send_events_length 0 (k + 1)⟩
  · intro t hto
    have h := send_loop_timeout_all (π := π) k t 0 hto
    exact ⟨by simp [send_request, h], send_events_length 0 (k + 1)⟩

theorem retry_timeout_policy_witness :
    send_request (ε := Unit) (π := Unit)
        (fun i => if i < 2 then AttemptOutcome.timeout else AttemptOutcome.success 7) 2
      = (Except.ok 7, [Event.acquire, Event.send 0, Event.send 1, Event.send 2])
    ∧ send_request (ε := Unit) (π := Unit) (α := Nat) (fun _ => AttemptOutcome.timeout) 2
      = (Except.error OsuError.requestTimeout,
          [Event.acquire, Event.send 0, Event.send 1, Event.send 2]) := by
  constructor
  · have h := ((retry_timeout_policy (ε := Unit) (π := Unit) 2).1
      (fun i => if i < 2 then AttemptOutcome.timeout else AttemptOutcome.success 7) 7
      (fun i hi => by simp [hi]) rfl).1
    simpa [send_events] using h
  · have h := ((retry_timeout_policy (ε := Unit) (π := Unit) (α := Nat) 2).2
      (fun _ => AttemptOutcome.timeout) (fun _ => rfl)).1
    simpa [send_events] using h

/-- C3: a non-timeout transport failure on any attempt is never retried:
whenever the first `m` attempts time out and attempt `m` completes with a
transport error, `send_request` returns `OsuError::Request` immediately after
that attempt (`m + 1` sends), no matter how many retries (`k - m`) remain. -/
theorem transport_failure_not_retried {ε α π : Type} :
    ∀ (k m : Nat) (t : Nat → AttemptOutcome ε α) (e : ε), m ≤ k →
      (∀ i, i < m → t i = AttemptOutcome.timeout) →
      t m = AttemptOutcome.failure e →
      send_request (π := π) t k
          = (Except.error (OsuError.request e), Event.acquire :: send_events 0 (m + 1))
        ∧ (send_events 0 (m + 1)).length = m + 1 := by
  intro k m t e hmk hto hf
  have h := send_loop_failure (π := π) m t k 0 e hmk
    (fun i hi => by simpa using hto i hi) (by simpa using hf)
  exact ⟨by simp [send_request, h], send_events_length 0 (m + 1)⟩

theorem transport_failure_not_retried_witness :
    send_request (ε := Nat) (π := Unit) (α := Nat)
        (fun i => if i = 0 then AttemptOutcome.timeout else AttemptOutcome.failure 42) 3
      = (Except.error (OsuError.request 42), [Event.acquire, Event.send 0, Event.send 1]) := by
  have h := (transport_failure_not_retried (ε := Nat) (π := Unit) (α := Nat) 3 1
    (fun i => if i = 0 then AttemptOutcome.timeout else AttemptOutcome.failure 42) 42
    (by omega) (fun i hi => by interval_cases i; rfl) rfl).1
  simpa [send_events] using h

/-- C4: every outbound network call — `send_request` itself, the token
acquisition `request_token`, and the API path `raw` — acquires exactly one
unit from the shared rate limiter before the network send, also across
internal retries: the event trace starts with the single `acquire` and
everything after it is a send attempt (`raw` produces no events at all when
it fails before reaching `send_request`). -/
theorem rate_limiter_gate_once {ε α π τ : Type} :
    (∀ (t : Nat → AttemptOutcome ε α) (k : Nat),
        gate_once ((send_request (π := π) t k).2))
    ∧ (∀ (client_id : Nat) (client_secret : String) (auth : AuthorizationKind)
        (stored_refresh : Option String)
        (t : BuiltRequest → Nat → AttemptOutcome ε HttpResp) (k : Nat)
        (dErr : String → Except String π) (dTok : String → Except String τ),
        gate_once ((request_token client_id client_secret auth stored_refresh t k dErr dTok).2))
    ∧ ∀ (path query body : String) (tok : Token) (enc : String → Option String)
        (t : BuiltRequest → Nat → AttemptOutcome ε α) (k : Nat),
        (raw (π := π) path query body tok enc t k).2 = []
        ∨ gate_once ((raw (π := π) path query body tok enc t k).2) := by
  have main : ∀ {β : Type} (t : Nat → AttemptOutcome ε β) (k : Nat),
      gate_once ((send_request (π := π) t k).2) := by
    intro β t k
    exact ⟨(send_loop (π := π) t k 0).2, rfl, fun x hx => send_loop_only_sends k t 0 x hx⟩
  refine ⟨fun t k => main t k, ?_, ?_⟩
  · intro cid sec auth refresh t k dErr dTok
    have h := main (t (token_request cid sec auth refresh)) k
    simpa [request_token] using h
  · intro path query body tok enc t k
    cases htok : tok.access with
    | none =>
      left
      simp [raw, htok]
    | some access =>
      cases henc : enc access with
      | none =>
        left
        simp [raw, htok, henc]
      | some v =>
        right
        have h := main (t (api_request v path query body)) k
        simpa [raw, htok, henc] using h

/-- C5: when the stored token has no access string, `raw` fails immediately
with `OsuError::NoToken` and produces no events at all — no rate-limiter
acquisition, no network send; the client state is untouched (`raw` is a pure
function of it). When an access string is present (and encodes as a header
value) the request proceeds into `send_request`. -/
theorem no_token_fails_immediately {ε α π : Type} :
    (∀ (path query body : String) (refresh : Option String)
        (enc : String → Option String) (t : BuiltRequest → Nat → AttemptOutcome ε α)
        (k : Nat),
        raw (π := π) path query body ⟨none, refresh⟩ enc t k
          = (Except.error OsuError.noToken, []))
    ∧ ∀ (path query body access : String) (refresh : Option String)
        (enc : String → Option String) (v : String)
        (t : BuiltRequest → Nat → AttemptOutcome ε α) (k : Nat),
        enc access = some v →
        raw (π := π) path query body ⟨some access, refresh⟩ enc t k
          = send_request (t (api_request v path query body)) k := by
  constructor
  · intro path query body refresh enc t k
    rfl
  · intro path query body access refresh enc v t k henc
    simp [raw, henc]

theorem no_token_fails_immediately_witness :
    raw (ε := Unit) (π := Unit) (α := Nat) "users/2" "" "" ⟨some "Bearer abc", none⟩
        some (fun _ _ => AttemptOutcome.success 5) 0
      = send_request (fun _ => AttemptOutcome.success 5) 0 := by
  exact (no_token_fails_immediately (ε := Unit) (π := Unit) (α := Nat)).2
    "users/2" "" "" "Bearer abc" none some "Bearer abc"
    (fun _ _ => AttemptOutcome.success 5) 0 rfl

/-- C1: `handle_status` classifies a response purely from the pair
(status, body): 200 returns the body for deserialization; 404 is `NotFound`
regardless of body; 503 is `ServiceUnavailable` with the raw body text; every
other status (429 included — it only logs a warning) tries the API-error
decoder and yields `OsuError::Response` with status, raw body and parsed
payload on success, `OsuError::Parsing` with the raw body and the parse error
on failure; and a 200 body that does not deserialize makes `parse_bytes`
yield the distinct `OsuError::Parsing` carrying the raw body text. -/
theorem response_classification {ε π τ : Type} :
    (∀ (d : String → Except String π) (body : String),
        handle_status (ε := ε) d 200 body = Except.ok body)
    ∧ (∀ (d : String → Except String π) (body : String),
        handle_status (ε := ε) d 404 body = Except.error OsuError.notFound)
    ∧ (∀ (d : String → Except String π) (body : String),
        handle_status (ε := ε) d 503 body = Except.error (OsuError.serviceUnavailable body))
    ∧ (∀ (d : String → Except String π) (status : Nat) (body : String),
        status ≠ 200 → status ≠ 404 → status ≠ 503 →
          (∀ p, d body = Except.ok p →
            handle_status (ε := ε) d status body
              = Except.error (OsuError.response body p status))
          ∧ ∀ e, d body = Except.error e →
            handle_status (ε := ε) d status body
              = Except.error (OsuError.parsing body e))
    ∧ (∀ (dT : String → Except String τ) (body e : String), dT body = Except.error e →
        parse_bytes (ε := ε) (π := π) dT body = Except.error (OsuError.parsing body e))
    ∧ ∀ (dT : String → Except String τ) (body : String) (v : τ), dT body = Except.ok v →
        parse_bytes (ε := ε) (π := π) dT body = Except.ok v := by
  refine ⟨?_, ?_, ?_, ?_, ?_, ?_⟩
  · intro d body
    simp [handle_status]
  · intro d body
    simp [handle_status]
  · intro d body
    simp [handle_status]
  · intro d status body h200 h404 h503
    constructor
    · intro p hp
      simp [handle_status, h200, h404, h503, hp]
    · intro e he
      simp [handle_status, h200, h404, h503, he]
  · intro dT body e he
    simp [parse_bytes, he]
  · intro dT body v hv
    simp [parse_bytes, hv]

theorem response_classification_witness :
    handle_status (ε := Unit) (fun s => if s = "good" then Except.ok 3 else Except.error "bad")
        429 "good" = Except.error (OsuError.response "good" 3 429)
    ∧ handle_status (ε := Unit) (fun s => if s = "good" then Except.ok 3 else Except.error "bad")
        400 "oops" = Except.error (OsuError.parsing "oops" "bad")
    ∧ parse_bytes (ε := Unit) (π := Unit) (fun s => if s = "5" then Except.ok 5 else Except.error "nope")
        "xyz" = (Except.error (OsuError.parsing "xyz" "nope") : Except (OsuError Unit Unit) Nat) := by
  refine ⟨?_, ?_, ?_⟩
  · exact ((response_classification (ε := Unit) (τ := Nat)).2.2.2.1
      (fun s => if s = "good" then Except.ok 3 else Except.error "bad") 429 "good"
      (by decide) (by decide) (by decide)).1 3 rfl
  · exact ((response_classification (ε := Unit) (τ := Nat)).2.2.2.1
      (fun s => if s = "good" then Except.ok 3 else Except.error "bad") 400 "oops"
      (by decide) (by decide) (by decide)).2 "bad" rfl
  · exact (response_classification (ε := Unit) (π := Unit)).2.2.2.2.1
      (fun s => if s = "5" then Except.ok 5 else Except.error "nope") "xyz" "nope" rfl

/-- C6: the token acquisition body always contains the client id (unquoted)
and the client secret, and depending on the authorization kind:
client-credentials sends `grant_type=client_credentials` with the configured
scope; the user flow sends `grant_type=refresh_token` with the stored refresh
token when one exists, and otherwise `grant_type=authorization_code` with the
one-time code and the redirect URI. -/
theorem token_body_by_grant :
    (∀ (cid : Nat) (sec scope : String) (stored : Option String),
        ("grant_type", BodyValue.str "client_credentials")
            ∈ (request_token_body cid sec (AuthorizationKind.client scope) stored).fields
          ∧ ("scope", BodyValue.str scope)
            ∈ (request_token_body cid sec (AuthorizationKind.client scope) stored).fields
          ∧ ("client_id", BodyValue.num cid)
            ∈ (request_token_body cid sec (AuthorizationKind.client scope) stored).fields
          ∧ ("client_secret", BodyValue.str sec)
            ∈ (request_token_body cid sec (AuthorizationKind.client scope) stored).fields)
    ∧ (∀ (cid : Nat) (sec ru code r : String),
        ("grant_type", BodyValue.str "refresh_token")
            ∈ (request_token_body cid sec (AuthorizationKind.user ru code) (some r)).fields
          ∧ ("refresh_token", BodyValue.str r)
            ∈ (request_token_body cid sec (AuthorizationKind.user ru code) (some r)).fields
          ∧ ("client_id", BodyValue.num cid)
            ∈ (request_token_body cid sec (AuthorizationKind.user ru code) (some r)).fields
          ∧ ("client_secret", BodyValue.str sec)
            ∈ (request_token_body cid sec (AuthorizationKind.user ru code) (some r)).fields)
    ∧ ∀ (cid : Nat) (sec ru code : String),
        ("grant_type", BodyValue.str "authorization_code")
            ∈ (request_token_body cid sec (AuthorizationKind.user ru code) none).fields
          ∧ ("code", BodyValue.str code)
            ∈ (request_token_body cid sec (AuthorizationKind.user ru code) none).fields
          ∧ ("redirect_uri", BodyValue.str ru)
            ∈ (request_token_body cid sec (AuthorizationKind.user ru code) none).fields
          ∧ ("client_id", BodyValue.num cid)
            ∈ (request_token_body cid sec (AuthorizationKind.user ru code) none).fields
          ∧ ("client_secret", BodyValue.str sec)
            ∈ (request_token_body cid sec (AuthorizationKind.user ru code) none).fields := by
  refine ⟨?_, ?_, ?_⟩
  · intro cid sec scope stored
    simp [request_token_body, Body.default, Body.push_without_quotes, Body.push_with_quotes]
  · intro cid sec ru code r
    simp [request_token_body, Body.default, Body.push_without_quotes, Body.push_with_quotes]
  · intro cid sec ru code
    simp [request_token_body, Body.default, Body.push_without_quotes, Body.push_with_quotes]

/-- C7: the API request built by `raw` carries exactly the authorization
header (the stored bearer token), the fixed user-agent, the fixed date-coded
`x-api-version`, `Accept: application/json` and a `Content-Length` equal to
the body length — plus `Content-Type: application/json` if and only if the
body is non-empty. -/
theorem api_request_headers :
    ∀ v path query body : String,
      (api_request v path query body).headers
          = [("authorization", HeaderVal.str v),
             ("user-agent", HeaderVal.str MY_USER_AGENT),
             (X_API_VERSION, HeaderVal.num API_VERSION),
             ("accept", HeaderVal.str APPLICATION_JSON),
             ("content-length", HeaderVal.num body.length)]
            ++ (if body = "" then []
                else [("content-type", HeaderVal.str APPLICATION_JSON)])
        ∧ (("content-type", HeaderVal.str APPLICATION_JSON)
              ∈ (api_request v path query body).headers
            ↔ body ≠ "") := by
  intro v path query body
  constructor
  · by_cases h : body = "" <;> simp [api_request, h]
  · by_cases h : body = "" <;> simp [api_request, h, APPLICATION_JSON, X_API_VERSION]

/-- C8: polling the same lazy builder instance twice starts the underlying
computation at most once and issues exactly one network send; before the
first poll no network activity has happened, and a fresh builder is in the
not-yet-started state (`fut = none`). -/
theorem lazy_start_idempotent :
    ∀ mode : GameMode,
      (ChartBuilderState.mk (GetChartRankings.new mode) 0).sends = 0
      ∧ (poll_once (ChartBuilderState.mk (GetChartRankings.new mode) 0)).sends = 1
      ∧ poll_once (poll_once (ChartBuilderState.mk (GetChartRankings.new mode) 0))
          = poll_once (ChartBuilderState.mk (GetChartRankings.new mode) 0)
      ∧ (GetChartRankings.new mode).fut = none := by
  intro mode
  exact ⟨rfl, rfl, rfl, rfl⟩

/-- C9 counterexample: on a fresh (not-yet-started) performance-rankings
builder whose mode is osu!standard, the fluent method `variant_4k` mutates
no field at all — it returns the builder unchanged and in particular does not
set `variant` to `"4k"` — refuting "each fluent configuration method returns
the builder with exactly one field mutated to reflect the given argument". -/
theorem fluent_one_field_counterexample :
    (GetPerformanceRankings.new GameMode.STD).fut = none
    ∧ GetPerformanceRankings.variant_4k (GetPerformanceRankings.new GameMode.STD)
        = GetPerformanceRankings.new GameMode.STD
    ∧ (GetPerformanceRankings.variant_4k (GetPerformanceRankings.new GameMode.STD)).variant
        ≠ some "4k" := by
  refine ⟨rfl, by decide, by decide⟩

/-- C9 (amended): each fluent configuration method of a not-yet-started
builder returns the builder by value with at most one field mutated to the
given argument and every other field — the `fut` slot included — unchanged:
`spotlight`, `page` and `country` always mutate exactly their one field,
while `variant_4k`/`variant_7k` mutate exactly the `variant` field when the
mode is mania and mutate nothing otherwise. -/
theorem fluent_methods_frame :
    (∀ (b : GetChartRankings) (i : Nat), b.fut = none →
        b.set_spotlight i = { b with spotlight := some i })
    ∧ (∀ (b : GetPerformanceRankings) (n : Nat), b.fut = none →
        b.set_page n = { b with page := some n })
    ∧ (∀ (b : GetPerformanceRankings) (c : String), b.fut = none →
        b.set_country c = { b with country := some c })
    ∧ ∀ b : GetPerformanceRankings, b.fut = none →
        (b.mode = GameMode.MNA →
          b.variant_4k = { b with variant := some "4k" }
          ∧ b.variant_7k = { b with variant := some "7k" })
        ∧ (b.mode ≠ GameMode.MNA → b.variant_4k = b ∧ b.variant_7k = b) := by
  refine ⟨fun b i _ => rfl, fun b n _ => rfl, fun b c _ => rfl, ?_⟩
  intro b _
  constructor
  · intro hm
    exact ⟨by simp [GetPerformanceRankings.variant_4k, hm],
           by simp [GetPerformanceRankings.variant_7k, hm]⟩
  · intro hm
    exact ⟨by simp [GetPerformanceRankings.variant_4k, hm],
           by simp [GetPerformanceRankings.variant_7k, hm]⟩

theorem fluent_methods_frame_witness :
    GetChartRankings.set_spotlight (GetChartRankings.new GameMode.STD) 7
        = { GetChartRankings.new GameMode.STD with spotlight := some 7 }
    ∧ GetPerformanceRankings.set_page (GetPerformanceRankings.new GameMode.TKO) 3
        = { GetPerformanceRankings.new GameMode.TKO with page := some 3 }
    ∧ GetPerformanceRankings.set_country (GetPerformanceRankings.new GameMode.TKO) "BE"
        = { GetPerformanceRankings.new GameMode.TKO with country := some "BE" }
    ∧ GetPerformanceRankings.variant_4k (GetPerformanceRankings.new GameMode.MNA)
        = { GetPerformanceRankings.new GameMode.MNA with variant := some "4k" } := by
  refine ⟨?_, ?_, ?_, ?_⟩
  · exact fluent_methods_frame.1 (GetChartRankings.new GameMode.STD) 7 rfl
  · exact fluent_methods_frame.2.1 (GetPerformanceRankings.new GameMode.TKO) 3 rfl
  · exact fluent_methods_frame.2.2.1 (GetPerformanceRankings.new GameMode.TKO) "BE" rfl
  · exact ((fluent_methods_frame.2.2.2 (GetPerformanceRankings.new GameMode.MNA) rfl).1 rfl).1

lemma apply_perf_list_preserves (acts : List PerfAction) :
    ∀ b : GetPerformanceRankings, b.mode ≠ GameMode.MNA → b.variant = none →
      (apply_perf_list b acts).mode = b.mode ∧ (apply_perf_list b acts).variant = none := by
  induction acts with
  | nil =>
    intro b _ hv
    exact ⟨rfl, hv⟩
  | cons a acts ih =>
    intro b hm hv
    have hstep : (apply_perf b a).mode = b.mode ∧ (apply_perf b a).variant = none := by
      cases a <;> simp [apply_perf, GetPerformanceRankings.set_country,
        GetPerformanceRankings.set_page, GetPerformanceRankings.variant_4k,
        GetPerformanceRankings.variant_7k, hm, hv]
    have hrest := ih (apply_perf b a) (by rw [hstep.1]; exact hm) hstep.2
    have hfold : apply_perf_list b (a :: acts) = apply_perf_list (apply_perf b a) acts := rfl
    rw [hfold]
    exact ⟨by rw [hrest.1, hstep.1], hrest.2⟩

/-- C10: `variant_4k` and `variant_7k` set the `variant` field (to `"4k"` and
`"7k"`) only when the builder's game mode is mania; for every other game mode
they return the builder completely unchanged, so no sequence of fluent
configuration method calls on a non-mania builder ever produces a
`variant` parameter in the query assembled by `start`. -/
theorem variant_only_for_mania :
    (∀ b : GetPerformanceRankings, b.mode = GameMode.MNA →
        b.variant_4k = { b with variant := some "4k" }
        ∧ b.variant_7k = { b with variant := some "7k" })
    ∧ (∀ b : GetPerformanceRankings, b.mode ≠ GameMode.MNA →
        b.variant_4k = b ∧ b.variant_7k = b)
    ∧ ∀ (mode : GameMode) (acts : List PerfAction), mode ≠ GameMode.MNA →
        ∀ v : String,
          ("variant", v)
            ∉ perf_start_query (apply_perf_list (GetPerformanceRankings.new mode) acts) := by
  refine ⟨?_, ?_, ?_⟩
  · intro b hm
    exact ⟨by simp [GetPerformanceRankings.variant_4k, hm],
           by simp [GetPerformanceRankings.variant_7k, hm]⟩
  · intro b hm
    exact ⟨by simp [GetPerformanceRankings.variant_4k, hm],
           by simp [GetPerformanceRankings.variant_7k, hm]⟩
  · intro mode acts hm v hmem
    have hb := apply_perf_list_preserves acts (GetPerformanceRankings.new mode)
      (by simpa [GetPerformanceRankings.new] using hm) rfl
    rcases hb with ⟨-, hvar⟩
    simp only [perf_start_query, hvar] at hmem
    cases hcountry : (apply_perf_list (GetPerformanceRankings.new mode) acts).country <;>
      cases hpage : (apply_perf_list (GetPerformanceRankings.new mode) acts).page <;>
        simp [hcountry, hpage] at hmem

theorem variant_only_for_mania_witness :
    GetPerformanceRankings.variant_4k (GetPerformanceRankings.new GameMode.MNA)
        = { GetPerformanceRankings.new GameMode.MNA with variant := some "4k" }
    ∧ GetPerformanceRankings.variant_7k (GetPerformanceRankings.new GameMode.STD)
        = GetPerformanceRankings.new GameMode.STD
    ∧ ("variant", "4k") ∉ perf_start_query
        (apply_perf_list (GetPerformanceRankings.new GameMode.STD)
          [PerfAction.variant_4k, PerfAction.set_page 3]) := by
  refine ⟨?_, ?_, ?_⟩
  · exact (variant_only_for_mania.1 (GetPerformanceRankings.new GameMode.MNA) rfl).1
  · exact (variant_only_for_mania.2.1 (GetPerformanceRankings.new GameMode.STD) (by decide)).2
  · exact variant_only_for_mania.2.2 GameMode.STD
      [PerfAction.variant_4k, PerfAction.set_page 3] (by decide) "4k"
